import Mathlib

/-!
Verification of the VintedPics front-end (a React/TypeScript client for a
generative-AI cloud API) against its natural-language specification.

The TypeScript components are shallowly embedded: each React component's
local state becomes a Lean structure, each handler becomes a pure function
from the pre-state (plus the inputs the browser or the remote service
supplies to the handler) to the post-state, and calls with external effects
(stopping an audio source, fetching a URI) are recorded in an explicit
effect/trace component of the result.  Audio times are rationals.
-/

namespace VintedPics

/-! ## Live voice assistant (src/components/LiveAssistant.tsx)

State of the `LiveAssistant` component: the `useState` hooks `connected`,
`isTalking`, `error` and the refs `audioContextRef`, `inputContextRef`,
`streamRef` (its tracks), `processorRef`, `sessionRef`, `sourceRef`,
`nextStartTimeRef`, `sourcesRef`.  `Option` models a ref that may still be
`null`. -/

/-- State of a browser `AudioContext`: `running` or `closed`. -/
inductive AudioCtxState
  | running
  | closed
deriving DecidableEq

/-- An audio source scheduled for playback on the output context
(`ctx.createBufferSource()` with `source.start(t)`): its start time and the
decoded buffer's duration, in seconds. -/
structure PlaybackSource where
  startTime : ℚ
  duration : ℚ
deriving DecidableEq

/-- The time at which a scheduled playback source finishes playing. -/
def PlaybackSource.endTime (s : PlaybackSource) : ℚ :=
  s.startTime + s.duration

/-- The mutable state of the `LiveAssistant` component.

`sessionOpen = some b` models a non-null `sessionRef` whose session is open
iff `b`; `trackStopped` lists the microphone stream's tracks by their
stopped flag; `procConnected`/`srcConnected` model the script-processor and
media-stream-source nodes by whether they are connected; `sources` holds the
contents of `sourcesRef` (the set of currently scheduled playback
sources). -/
structure LiveState where
  connected : Bool
  isTalking : Bool
  error : Option String
  sessionOpen : Option Bool
  trackStopped : List Bool
  procConnected : Option Bool
  srcConnected : Option Bool
  inputCtx : Option AudioCtxState
  audioCtx : Option AudioCtxState
  nextStartTime : ℚ
  sources : List PlaybackSource
deriving DecidableEq

/-- The audio branch of the `onmessage` callback (LiveAssistant.tsx lines
77–102), for one server message whose `serverContent.modelTurn` carries
inline audio data.  `currentTime` is `ctx.currentTime` at the moment the
message is handled and `duration` is the decoded buffer's duration:

```
setIsTalking(true);
nextStartTimeRef.current = Math.max(nextStartTimeRef.current, ctx.currentTime);
const audioBuffer = await decodeAudioData(...);
const source = ctx.createBufferSource();
source.start(nextStartTimeRef.current);
nextStartTimeRef.current += audioBuffer.duration;
sourcesRef.current.add(source);
```
-/
def processAudioFrame (st : LiveState) (currentTime duration : ℚ) : LiveState :=
  let t := max st.nextStartTime currentTime
  { st with
      isTalking := true
      nextStartTime := t + duration
      sources := st.sources ++ [⟨t, duration⟩] }

/-- The `interrupted` branch of the `onmessage` callback (LiveAssistant.tsx
lines 104–109):

```
sourcesRef.current.forEach(s => s.stop());
sourcesRef.current.clear();
nextStartTimeRef.current = 0;
setIsTalking(false);
```

The second component of the result records the playback sources on which
`stop()` was called (the `forEach`). -/
def handleInterrupted (st : LiveState) : LiveState × List PlaybackSource :=
  ({ st with
      sources := []
      nextStartTime := 0
      isTalking := false },
   st.sources)

/-- The `cleanup` function (LiveAssistant.tsx lines 20–39):

```
sessionRef.current?.close();
streamRef.current?.getTracks().forEach(track => track.stop());
processorRef.current?.disconnect();
sourceRef.current?.disconnect();
if (inputContextRef.current?.state !== 'closed') inputContextRef.current?.close();
if (audioContextRef.current?.state !== 'closed') audioContextRef.current?.close();
sourcesRef.current.forEach(s => s.stop());
sourcesRef.current.clear();
setConnected(false);
setIsTalking(false);
```

The second component records the playback sources on which `stop()` was
called.  Note that `cleanup` does not touch `error` and does not reset
`nextStartTimeRef`. -/
def cleanup (st : LiveState) : LiveState × List PlaybackSource :=
  ({ st with
      sessionOpen := st.sessionOpen.map (fun _ => false)
      trackStopped := st.trackStopped.map (fun _ => true)
      procConnected := st.procConnected.map (fun _ => false)
      srcConnected := st.srcConnected.map (fun _ => false)
      inputCtx := st.inputCtx.map (fun c => if c = .closed then c else .closed)
      audioCtx := st.audioCtx.map (fun c => if c = .closed then c else .closed)
      sources := []
      connected := false
      isTalking := false },
   st.sources)

/-! ## Microphone capture (src/components/LiveAssistant.tsx, onopen callback)

`startSession` creates the input `AudioContext` with `{sampleRate: 16000}`
(line 47) and the output context with `{sampleRate: 24000}` (line 48); the
`onopen` callback attaches a script processor to the microphone stream
(lines 60–72). -/

/-- A `ScriptProcessorNode` as created by
`createScriptProcessor(bufferSize, numberOfInputChannels, numberOfOutputChannels)`. -/
structure ScriptProcessor where
  bufferSize : ℕ
  numInputChannels : ℕ
  numOutputChannels : ℕ
deriving DecidableEq

/-- Sample rate of the input audio context
(`new AudioContext({sampleRate: 16000})`, line 47). -/
def inputContextSampleRate : ℕ := 16000

/-- Sample rate of the output audio context
(`new AudioContext({sampleRate: 24000})`, line 48). -/
def outputContextSampleRate : ℕ := 24000

/-- The processor attached to the microphone stream:
`inputContextRef.current!.createScriptProcessor(4096, 1, 1)` (line 62). -/
def micProcessor : ScriptProcessor :=
  { bufferSize := 4096, numInputChannels := 1, numOutputChannels := 1 }

/-- A PCM blob as forwarded to the live session via
`session.sendRealtimeInput({ media: pcmBlob })`; samples are rationals in
place of 32-bit floats. -/
structure PcmBlob where
  samples : List ℚ
deriving DecidableEq

/-- Modelled from the spec: `createPcmBlob` is imported from
`../utils/audioUtils`, a file that is not part of the repository snapshot.
The spec says microphone audio is "encoded and forwarded in small frames",
so the encoding is modelled as a blob carrying exactly the input samples
(one encoded PCM sample per input sample). -/
def createPcmBlob (inputData : List ℚ) : PcmBlob :=
  { samples := inputData }

/-- An `audioprocess` event: `e.inputBuffer`, given by its per-channel
sample data.  For a processor created with buffer size `n`, every channel
of the event's input buffer holds exactly `n` samples. -/
structure AudioProcessEvent where
  inputBuffer : List (List ℚ)
deriving DecidableEq

/-- `e.inputBuffer.getChannelData(0)`: the sample data of channel 0. -/
def getChannelData0 (e : AudioProcessEvent) : List ℚ :=
  e.inputBuffer.headD []

/-- The `processor.onaudioprocess` handler (lines 65–69): encode channel 0
of the input buffer with `createPcmBlob` and forward the blob to the live
session.  The result is the forwarded frame. -/
def micOnAudioProcess (e : AudioProcessEvent) : PcmBlob :=
  createPcmBlob (getChannelData0 e)

/-! ## blobToBase64 (src/types.ts lines 29–43)

Strings are modelled as lists of characters so that JavaScript's
`String.prototype.split` can be embedded structurally. -/

/-- The result a `FileReader` holds in `onloadend`: `readAsDataURL` yields
a string (a data URL); any other result (null or an ArrayBuffer) is
`nonString`. -/
inductive ReaderResult
  | str (s : List Char)
  | nonString
deriving DecidableEq

/-- Outcome of a JavaScript promise: resolved with a value or rejected
with an error message. -/
inductive PromiseOutcome (α : Type)
  | resolved (value : α)
  | rejected (message : String)
deriving DecidableEq

/-- JavaScript `s.split(',')` on a string viewed as a list of characters:
the maximal comma-free groups, with empty groups kept. -/
def jsSplitComma : List Char → List (List Char)
  | [] => [[]]
  | c :: cs =>
      if c = ',' then [] :: jsSplitComma cs
      else
        match jsSplitComma cs with
        | [] => [[c]]
        | g :: gs => (c :: g) :: gs

/-- The `onloadend` handler of `blobToBase64` (types.ts lines 32–39): when
the reader's result is a string, resolve with `result.split(',')[1]` (the
JavaScript index yields `undefined`, modelled `none`, when there is no
second group); otherwise reject with the fixed error. -/
def blobToBase64OnLoadEnd : ReaderResult → PromiseOutcome (Option (List Char))
  | .str s => .resolved ((jsSplitComma s).get? 1)
  | .nonString => .rejected "Failed to convert blob to base64"

/-- The substring of `s` after the first comma (`none` when `s` has no
comma); used to state what the spec claims `blobToBase64` resolves with. -/
def afterFirstComma : List Char → Option (List Char)
  | [] => none
  | c :: cs => if c = ',' then some cs else afterFirstComma cs

/-! ## Video generation polling (src/unnamed VeoStudio component,
`generateVideo`)

```
while (!operation.done) {
  setStatus('Rendering video... this may take a minute.');
  await new Promise(resolve => setTimeout(resolve, 5000));
  operation = await ai.operations.getVideosOperation({operation: operation});
}
const downloadLink = operation.response?.generatedVideos?.[0]?.video?.uri;
if (downloadLink && process.env.API_KEY) { ... fetch(downloadLink ...) ... }
else { throw new Error("No video URI returned"); }
```

The remote service is modelled as the sequence `ops : ℕ → VideoOperation`
of operation snapshots: `ops 0` is the operation returned by
`generateVideos` and `ops (n+1)` the one returned by the `(n+1)`-th
`getVideosOperation` refetch. -/

/-- A long-running video operation snapshot: its `done` flag and the video
URI of its response (`operation.response?.generatedVideos?.[0]?.video?.uri`),
when present. -/
structure VideoOperation where
  done : Bool
  uri : Option String
deriving DecidableEq

/-- Observable steps of `generateVideo` after the generation starts. -/
inductive VeoEvent
  | wait (ms : ℕ)
  | refetch
  | fetchUri (uri : String)
  | errorNoUri
deriving DecidableEq

/-- The polling loop, run with explicit fuel (the loop itself has no bound;
the fuel makes the embedding total, and the theorems show fuel `k + 1`
suffices when poll `k` is the first to return a done operation).  `n` is
the index of the current operation snapshot; the returned trace records a
5000 ms wait followed by a refetch for every iteration that saw an undone
operation. -/
def pollLoop (ops : ℕ → VideoOperation) : ℕ → ℕ → Option (VideoOperation × List VeoEvent)
  | 0, _ => none
  | fuel + 1, n =>
      if (ops n).done then some (ops n, [])
      else
        match pollLoop ops fuel (n + 1) with
        | none => none
        | some (op, evs) => some (op, .wait 5000 :: .refetch :: evs)

/-- The trace of `k` poll iterations: `k` times a 5000 ms wait followed by
a refetch. -/
def pollTrace : ℕ → List VeoEvent
  | 0 => []
  | k + 1 => .wait 5000 :: .refetch :: pollTrace k

/-- What `generateVideo` does after the loop: fetch the video URI when the
operation has one and an API key is set, otherwise throw
"No video URI returned". -/
def videoUriTail (hasApiKey : Bool) (op : VideoOperation) : List VeoEvent :=
  match op.uri with
  | some u => if hasApiKey then [.fetchUri u] else [.errorNoUri]
  | none => [.errorNoUri]

/-- The observable trace of `generateVideo` from the point the generation
has started: the polling loop's trace followed by the URI fetch (or the
no-URI error). -/
def generateVideoRun (ops : ℕ → VideoOperation) (hasApiKey : Bool)
    (fuel : ℕ) : Option (List VeoEvent) :=
  match pollLoop ops fuel 0 with
  | none => none
  | some (op, evs) => some (evs ++ videoUriTail hasApiKey op)

/-- A sample operation sequence for the C4 witness: polls 0 is not done,
poll 1 returns a done operation carrying a URI. -/
def opsSample : ℕ → VideoOperation :=
  fun n => { done := decide (1 ≤ n), uri := some "generated-video-uri" }

/-! ## Smart chat (src/unnamed/part_000, the `SmartChat` component) -/

/-- Role of a chat message (`'user' | 'model'` in types.ts). -/
inductive ChatRole
  | user
  | model
deriving DecidableEq

/-- A `ChatMessage` (types.ts lines 9–16).  `groundingMetadata` is
`any`-typed in the source and modelled as an opaque optional payload. -/
structure ChatMessage where
  id : String
  role : ChatRole
  text : String
  images : Option (List String)
  timestamp : ℕ
  groundingMetadata : Option String
deriving DecidableEq

/-- The chat's mode selector (`'fast' | 'think' | 'search' | 'maps'`). -/
inductive ChatMode
  | fast
  | think
  | search
  | maps
deriving DecidableEq

/-- The `SmartChat` component's local state. -/
structure ChatState where
  messages : List ChatMessage
  input : String
  isLoading : Bool
  mode : ChatMode
  uploadedImage : Option String
deriving DecidableEq

/-- The fields of a `generateContent` response that `sendMessage` reads:
`response.text` (absent modelled as `none`) and
`response.candidates?.[0]?.groundingMetadata`. -/
structure GenContentResponse where
  text : Option String
  groundingMetadata : Option String
deriving DecidableEq

/-- Outcome of the awaited request inside `sendMessage`: a response, or a
thrown error with its message. -/
inductive RequestOutcome
  | ok (response : GenContentResponse)
  | thrown (message : String)
deriving DecidableEq

/-- JavaScript truthiness of a nullable string (`null` and `''` are
falsy). -/
def jsTruthyOptStr : Option String → Bool
  | none => false
  | some s => !(s == "")

/-- JavaScript `!input.trim()`: the trimmed input is empty exactly when
every character of the input is whitespace. -/
def jsTrimmedEmpty (s : String) : Bool :=
  s.toList.all (fun c => c.isWhitespace)

/-- The guard of `sendMessage` (part_000 line 25):
`if ((!input.trim() && !uploadedImage) || isLoading) return;`. -/
def sendMessageBlocked (st : ChatState) : Bool :=
  (jsTrimmedEmpty st.input && !(jsTruthyOptStr st.uploadedImage)) || st.isLoading

/-- The user message appended by `sendMessage` (part_000 lines 27–33):
current input text, the uploaded image when truthy
(`images: uploadedImage ? [uploadedImage] : undefined`), and `Date.now()`
as id and timestamp. -/
def chatUserMsg (st : ChatState) (now : ℕ) : ChatMessage :=
  { id := toString now
    role := .user
    text := st.input
    images := match st.uploadedImage with
              | none => none
              | some s => if s = "" then none else some [s]
    timestamp := now
    groundingMetadata := none }

/-- The fixed fallback text used when the response carries no text
(part_000 line 95). -/
def noTextFallback : String := "I processed that, but have no text response."

/-- JavaScript `response.text || fallback`: the fallback replaces an
absent or empty response text. -/
def jsTextOr : Option String → String → String
  | none, fb => fb
  | some t, fb => if t = "" then fb else t

/-- The model-role message appended by `sendMessage` after the request
(part_000 lines 98–104 on success, lines 110–115 on a thrown error);
`nowResp` is `Date.now()` at response time. -/
def chatBotMsg (nowResp : ℕ) : RequestOutcome → ChatMessage
  | .ok r =>
      { id := toString (nowResp + 1)
        role := .model
        text := jsTextOr r.text noTextFallback
        images := none
        timestamp := nowResp
        groundingMetadata := r.groundingMetadata }
  | .thrown m =>
      { id := toString nowResp
        role := .model
        text := "Error: " ++ m
        images := none
        timestamp := nowResp
        groundingMetadata := none }

/-- `sendMessage` (part_000 lines 24–119) as a state transformer.  When
the guard blocks, the state is untouched.  Otherwise the user message is
appended and input, uploaded image and (through the `finally` block)
`isLoading` end cleared, with the model-role message appended after the
request's outcome is known. -/
def sendMessage (st : ChatState) (now nowResp : ℕ)
    (outcome : RequestOutcome) : ChatState :=
  if sendMessageBlocked st then st
  else
    { st with
        messages := st.messages ++ [chatUserMsg st now, chatBotMsg nowResp outcome]
        input := ""
        uploadedImage := none
        isLoading := false }

/-! ## Background replacement (src/components/VintedStudio.tsx,
`handleGenerate`) -/

/-- The quality selector (`type QualityOption = '1K' | '2K' | '4K'`). -/
inductive Quality
  | q1K
  | q2K
  | q4K
deriving DecidableEq

/-- The literal string of a quality option. -/
def Quality.str : Quality → String
  | .q1K => "1K"
  | .q2K => "2K"
  | .q4K => "4K"

/-- The `VintedStudio` component's local state. -/
structure StudioState where
  originalImage : Option String
  generatedImage : Option String
  prompt : String
  loading : Bool
  quality : Quality
deriving DecidableEq

/-- The `generateContent` request that `handleGenerate` sends
(VintedStudio.tsx lines 36–63): the selected model, the optional
`config.imageConfig.imageSize`, and the two content parts. -/
structure ImageGenRequest where
  model : String
  imageConfigSize : Option String
  imageData : String
  imageMimeType : String
  textPrompt : String
deriving DecidableEq

/-- The response parts `handleGenerate` scans
(`response.candidates?.[0]?.content?.parts`): for each part, its
`inlineData.data` when present.  An absent parts list is modelled as the
empty list (either way `generatedImage` stays cleared).  A thrown request
is `thrown`. -/
inductive GenImageOutcome
  | ok (parts : List (Option String))
  | thrown (message : String)
deriving DecidableEq

/-- The `for (const part of parts)` scan with `break` on the first part
carrying inline data. -/
def firstInlineData : List (Option String) → Option String
  | [] => none
  | some d :: _ => some d
  | none :: rest => firstInlineData rest

/-- `handleGenerate` (VintedStudio.tsx lines 24–81).  The guard
`if (!originalImage || !process.env.API_KEY) return;` leaves the state
untouched and sends nothing.  Otherwise the model is selected from the
quality (`'1K'` picks `gemini-2.5-flash-image`, `'2K'`/`'4K'` pick
`gemini-3-pro-image-preview` with `imageConfig.imageSize` set to the
quality), the request is sent, and the first inline-data part of the
response becomes the generated image; `loading` ends false through the
`finally` block.  The second component is the request sent, if any. -/
def handleGenerate (st : StudioState) (apiKey : Option String)
    (outcome : GenImageOutcome) : StudioState × Option ImageGenRequest :=
  if !(jsTruthyOptStr st.originalImage) || !(jsTruthyOptStr apiKey) then (st, none)
  else
    let req : ImageGenRequest :=
      { model := if st.quality = .q1K then "gemini-2.5-flash-image"
                 else "gemini-3-pro-image-preview"
        imageConfigSize := if st.quality = .q1K then none else some st.quality.str
        imageData := st.originalImage.getD ""
        imageMimeType := "image/jpeg"
        textPrompt := "Replace the background with " ++ st.prompt }
    match outcome with
    | .ok parts =>
        ({ st with
            loading := false
            generatedImage := (firstInlineData parts).map
              (fun d => "data:image/png;base64," ++ d) },
         some req)
    | .thrown _ =>
        ({ st with loading := false, generatedImage := none }, some req)

/-! ## Session lifecycle of the voice-assistant panel
(src/components/LiveAssistant.tsx)

For the at-most-one-session invariant the panel is modelled as a labelled
transition system over the asynchronous events the browser delivers.
`startSession` is an async function: `ai.live.connect` is called when the
user clicks "Start Conversation", but `connected` only becomes true when
that connection's `onopen` callback later fires.  A connect call whose
`onopen` has not fired yet is *pending*; once `onopen` fires the session
is *open* until it is closed.  Connect calls are numbered. -/

/-- Session-lifecycle state of the voice-assistant panel.  `connected`
mirrors the React state driving which button is rendered; `storedHandle`
is `sessionRef.current` (the handle of the most recent connect call);
`nextId` numbers connect calls. -/
structure PanelState where
  connected : Bool
  pendingSessions : List ℕ
  openSessions : List ℕ
  storedHandle : Option ℕ
  nextId : ℕ
deriving DecidableEq

/-- The asynchronous events of the panel: a click on the start button, the
`onopen`/`onclose` callback of connect call `sid`, and a call to `cleanup`
(the "End Call" button, the `onerror` handler, or unmount). -/
inductive PanelEvent
  | startClick
  | onOpen (sid : ℕ)
  | onClose (sid : ℕ)
  | cleanupCall
deriving DecidableEq

/-- Initial state of the panel: disconnected, no sessions, null
`sessionRef`. -/
def panelInit : PanelState :=
  { connected := false, pendingSessions := [], openSessions := []
    storedHandle := none, nextId := 0 }

/-- One panel transition; `none` when the event cannot occur in the given
state.  `startClick` requires `connected = false` (only then is the start
button rendered, LiveAssistant.tsx lines 170–176); it initiates a connect
call and stores its handle in `sessionRef` (line 129).  `onOpen sid`
requires `sid` pending; it marks the session open and sets `connected`
(line 57).  `onClose sid` requires `sid` open; the session closed on the
remote side and the callback clears `connected` (lines 111–113).
`cleanupCall` closes the session of the stored handle
(`sessionRef.current?.close()`, line 21) — pending or open — and clears
`connected` (line 37); it never touches sessions whose handle was
overwritten. -/
def panelStep (s : PanelState) : PanelEvent → Option PanelState
  | .startClick =>
      if s.connected then none
      else some { s with
                    pendingSessions := s.pendingSessions ++ [s.nextId]
                    storedHandle := some s.nextId
                    nextId := s.nextId + 1 }
  | .onOpen sid =>
      if sid ∈ s.pendingSessions then
        some { s with
                 pendingSessions := s.pendingSessions.erase sid
                 openSessions := s.openSessions ++ [sid]
                 connected := true }
      else none
  | .onClose sid =>
      if sid ∈ s.openSessions then
        some { s with
                 openSessions := s.openSessions.erase sid
                 connected := false }
      else none
  | .cleanupCall =>
      some { s with
               pendingSessions :=
                 match s.storedHandle with
                 | some sid => s.pendingSessions.erase sid
                 | none => s.pendingSessions
               openSessions :=
                 match s.storedHandle with
                 | some sid => s.openSessions.erase sid
                 | none => s.openSessions
               connected := false }

/-- Run a list of events from a state; `none` when some event cannot
occur. -/
def panelRun (s : PanelState) : List PanelEvent → Option PanelState
  | [] => some s
  | e :: evs =>
      match panelStep s e with
      | some s2 => panelRun s2 evs
      | none => none

/-- Checks, along the run of `evs` from `s`, that every `startClick`
happens in a quiescent state: no connect call pending and no session
open.  (The UI's own guard is only `connected = false`, which is weaker.) -/
def quiescentStarts (s : PanelState) : List PanelEvent → Bool
  | [] => true
  | e :: evs =>
      (if e = .startClick
       then s.pendingSessions.isEmpty && s.openSessions.isEmpty
       else true) &&
      (match panelStep s e with
       | some s2 => quiescentStarts s2 evs
       | none => true)

end VintedPics

namespace VintedPics

/-! ## Theorems for the live audio scheduling claims -/

/-- C1: in the live voice session, received audio frames are scheduled for
gapless playback.  For a server message carrying inline audio data, handled
at output-context time `ct` with decoded duration `d`: the next-start time
is first raised to at least `ct`, the source is started at exactly that
raised time, and the next-start time is then advanced by exactly `d`.
Consequently, when a second frame (time `ct2`, duration `d2`) is processed
before the first frame has finished playing (`ct2 ≤` the first frame's end
time), the second frame starts exactly when the first ends: no gap and no
overlap. -/
theorem c1_gapless_playback (st : LiveState) (ct d ct2 d2 : ℚ)
    (h : ct2 ≤ max st.nextStartTime ct + d) :
    (processAudioFrame st ct d).sources
        = st.sources ++ [⟨max st.nextStartTime ct, d⟩] ∧
    ct ≤ max st.nextStartTime ct ∧
    (processAudioFrame st ct d).nextStartTime = max st.nextStartTime ct + d ∧
    (processAudioFrame st ct d).isTalking = true ∧
    (processAudioFrame (processAudioFrame st ct d) ct2 d2).sources
        = (processAudioFrame st ct d).sources
            ++ [⟨(⟨max st.nextStartTime ct, d⟩ : PlaybackSource).endTime, d2⟩] := by
  refine ⟨rfl, le_max_right _ _, rfl, rfl, ?_⟩
  simp only [processAudioFrame, PlaybackSource.endTime]
  rw [max_eq_left h]

/-- Witness for C1 at a concrete state: first frame at current time 1 with
duration 2, second frame processed at current time 2 (before the first
frame's end 0 ⊔ 1 + 2 = 3). -/
theorem c1_gapless_playback_witness :
    (2 : ℚ) ≤ max (0 : ℚ) 1 + 2 ∧
    (processAudioFrame
        ⟨false, false, none, none, [], none, none, none, none, 0, []⟩
        1 2).sources = [] ++ [⟨max 0 1, 2⟩] ∧
    (processAudioFrame (processAudioFrame
        ⟨false, false, none, none, [], none, none, none, none, 0, []⟩
        1 2) 2 3).sources
      = (processAudioFrame
          ⟨false, false, none, none, [], none, none, none, none, 0, []⟩
          1 2).sources ++ [⟨(⟨max 0 1, 2⟩ : PlaybackSource).endTime, 3⟩] := by
  have hle : (2 : ℚ) ≤ max (0 : ℚ) 1 + 2 := by norm_num
  have h := c1_gapless_playback
    ⟨false, false, none, none, [], none, none, none, none, 0, []⟩ 1 2 2 3 hle
  exact ⟨hle, h.1, h.2.2.2.2⟩

/-- C2: handling a server message with `serverContent.interrupted` stops
every source currently in the scheduled-sources set (the recorded stop
calls are exactly the previous contents of the set), empties the set,
resets the next-start time to 0 and sets `isTalking` to false, so no frame
scheduled before the interruption is still playing or pending. -/
theorem c2_interrupted_clears_audio (st : LiveState) :
    (handleInterrupted st).1.sources = [] ∧
    (handleInterrupted st).1.nextStartTime = 0 ∧
    (handleInterrupted st).1.isTalking = false ∧
    (handleInterrupted st).2 = st.sources := by
  exact ⟨rfl, rfl, rfl, rfl⟩

/-- C7: after `cleanup`, the panel is idle — `connected` and `isTalking`
are false and the scheduled-sources set is empty — while the error message
is left unchanged; all microphone tracks are stopped, the processor and
source nodes disconnected, both audio contexts closed whenever present, the
stored session closed, and the stop calls cover exactly the previously
scheduled playback sources. -/
theorem c7_cleanup_idle_state (st : LiveState) :
    (cleanup st).1.connected = false ∧
    (cleanup st).1.isTalking = false ∧
    (cleanup st).1.sources = [] ∧
    (cleanup st).1.error = st.error ∧
    (cleanup st).1.trackStopped = st.trackStopped.map (fun _ => true) ∧
    (cleanup st).1.procConnected = st.procConnected.map (fun _ => false) ∧
    (cleanup st).1.srcConnected = st.srcConnected.map (fun _ => false) ∧
    (cleanup st).1.inputCtx = st.inputCtx.map (fun _ => AudioCtxState.closed) ∧
    (cleanup st).1.audioCtx = st.audioCtx.map (fun _ => AudioCtxState.closed) ∧
    (cleanup st).1.sessionOpen = st.sessionOpen.map (fun _ => false) ∧
    (cleanup st).2 = st.sources := by
  refine ⟨rfl, rfl, rfl, rfl, rfl, rfl, rfl, ?_, ?_, rfl, rfl⟩
  · show st.inputCtx.map (fun c => if c = .closed then c else .closed)
        = st.inputCtx.map (fun _ => AudioCtxState.closed)
    cases st.inputCtx with
    | none => rfl
    | some c => cases c <;> rfl
  · show st.audioCtx.map (fun c => if c = .closed then c else .closed)
        = st.audioCtx.map (fun _ => AudioCtxState.closed)
    cases st.audioCtx with
    | none => rfl
    | some c => cases c <;> rfl

/-- C5: the input audio context is created at 16000 Hz, the script
processor attached to the microphone stream has a 4096-sample buffer with
one input and one output channel, and for every `audioprocess` event whose
input buffer respects the processor's buffer size, the frame forwarded via
`sendRealtimeInput` is the PCM encoding of channel 0 and holds exactly
4096 samples. -/
theorem c5_mic_frames_4096 (e : AudioProcessEvent)
    (hlen : ∀ ch ∈ e.inputBuffer, ch.length = micProcessor.bufferSize)
    (hne : e.inputBuffer ≠ []) :
    inputContextSampleRate = 16000 ∧
    micProcessor = ⟨4096, 1, 1⟩ ∧
    micOnAudioProcess e = createPcmBlob (getChannelData0 e) ∧
    (micOnAudioProcess e).samples.length = 4096 := by
  refine ⟨rfl, rfl, rfl, ?_⟩
  show (getChannelData0 e).length = 4096
  unfold getChannelData0
  cases hbuf : e.inputBuffer with
  | nil => exact absurd hbuf hne
  | cons ch rest =>
      have := hlen ch (by rw [hbuf]; exact List.mem_cons_self ch rest)
      simpa [micProcessor] using this

/-- Witness for C5: a concrete event whose single channel holds 4096 zero
samples yields a forwarded frame of exactly 4096 samples. -/
theorem c5_mic_frames_4096_witness :
    (∀ ch ∈ (⟨[List.replicate 4096 (0 : ℚ)]⟩ : AudioProcessEvent).inputBuffer,
        ch.length = micProcessor.bufferSize) ∧
    (micOnAudioProcess ⟨[List.replicate 4096 (0 : ℚ)]⟩).samples.length = 4096 := by
  have hlen : ∀ ch ∈ (⟨[List.replicate 4096 (0 : ℚ)]⟩ : AudioProcessEvent).inputBuffer,
      ch.length = micProcessor.bufferSize := by
    intro ch hch
    have hch2 : ch = List.replicate 4096 (0 : ℚ) := List.mem_singleton.mp hch
    rw [hch2]
    exact List.length_replicate _ _
  exact ⟨hlen,
    (c5_mic_frames_4096 ⟨[List.replicate 4096 (0 : ℚ)]⟩ hlen
      (List.cons_ne_nil _ _)).2.2.2⟩

/-- Splitting a comma-free string yields that string as the only group. -/
theorem jsSplitComma_no_comma (s : List Char) (h : ',' ∉ s) :
    jsSplitComma s = [s] := by
  induction s with
  | nil => rfl
  | cons c cs ih =>
      have hc : ¬ c = ',' := fun hc => h (hc ▸ List.mem_cons_self c cs)
      have hcs : ',' ∉ cs := fun hm => h (List.mem_cons_of_mem c hm)
      unfold jsSplitComma
      rw [if_neg hc, ih hcs]

/-- Splitting at the first comma: a comma-free first part becomes the
first group. -/
theorem jsSplitComma_append (pre payload : List Char) (h : ',' ∉ pre) :
    jsSplitComma (pre ++ ',' :: payload) = pre :: jsSplitComma payload := by
  induction pre with
  | nil => simp [jsSplitComma]
  | cons c cs ih =>
      have hc : ¬ c = ',' := fun hc => h (hc ▸ List.mem_cons_self c cs)
      have hcs : ',' ∉ cs := fun hm => h (List.mem_cons_of_mem c hm)
      show (if c = ',' then [] :: jsSplitComma (cs ++ ',' :: payload)
            else match jsSplitComma (cs ++ ',' :: payload) with
                 | [] => [[c]]
                 | g :: gs => (c :: g) :: gs)
          = (c :: cs) :: jsSplitComma payload
      rw [if_neg hc, ih hcs]

/-- A comma-free suffix after the first comma is found by `afterFirstComma`. -/
theorem afterFirstComma_append (pre payload : List Char) (h : ',' ∉ pre) :
    afterFirstComma (pre ++ ',' :: payload) = some payload := by
  induction pre with
  | nil => simp [afterFirstComma]
  | cons c cs ih =>
      have hc : ¬ c = ',' := fun hc => h (hc ▸ List.mem_cons_self c cs)
      have hcs : ',' ∉ cs := fun hm => h (List.mem_cons_of_mem c hm)
      show afterFirstComma (c :: (cs ++ ',' :: payload)) = some payload
      unfold afterFirstComma
      rw [if_neg hc, ih hcs]

/-- C6: for every reader result that is a data URL — a comma-free prefix
(`data:<mime>;base64`), a comma, and a comma-free base64 payload — the
promise of `blobToBase64` resolves with exactly the substring after the
first comma, the bare base64 payload; for a non-string result it rejects
with an error. -/
theorem c6_blobToBase64 (pre payload : List Char)
    (hpre : ',' ∉ pre) (hpay : ',' ∉ payload) :
    blobToBase64OnLoadEnd (.str (pre ++ ',' :: payload))
        = .resolved (some payload) ∧
    afterFirstComma (pre ++ ',' :: payload) = some payload ∧
    blobToBase64OnLoadEnd .nonString
        = .rejected "Failed to convert blob to base64" := by
  refine ⟨?_, afterFirstComma_append pre payload hpre, rfl⟩
  show PromiseOutcome.resolved ((jsSplitComma (pre ++ ',' :: payload)).get? 1)
      = .resolved (some payload)
  rw [jsSplitComma_append pre payload hpre, jsSplitComma_no_comma payload hpay]
  rfl

/-- Every event recorded by a poll iteration is a 5000 ms wait or a
refetch (in particular no URI fetch happens inside the loop). -/
theorem pollTrace_events (k : ℕ) :
    ∀ e ∈ pollTrace k, e = VeoEvent.wait 5000 ∨ e = VeoEvent.refetch := by
  induction k with
  | zero => intro e he; cases he
  | succ k ih =>
      intro e he
      simp only [pollTrace, List.mem_cons] at he
      rcases he with he | he | he
      · exact Or.inl he
      · exact Or.inr he
      · exact ih e he

/-- The polling loop run from snapshot `n` with fuel `k + 1` stops exactly
at the first done operation `k` steps ahead, with a wait-and-refetch pair
recorded for every undone snapshot seen. -/
theorem pollLoop_first_done (ops : ℕ → VideoOperation) :
    ∀ k n, (ops (n + k)).done = true → (∀ m, m < k → (ops (n + m)).done = false) →
      pollLoop ops (k + 1) n = some (ops (n + k), pollTrace k) := by
  intro k
  induction k with
  | zero =>
      intro n hd _
      have hd0 : (ops n).done = true := by simpa using hd
      simp [pollLoop, hd0, pollTrace]
  | succ k ih =>
      intro n hd hlt
      have h0 : (ops n).done = false := by simpa using hlt 0 (Nat.succ_pos k)
      have hd2 : (ops (n + 1 + k)).done = true := by
        have he : n + 1 + k = n + (k + 1) := by omega
        rw [he]; exact hd
      have hlt2 : ∀ m, m < k → (ops (n + 1 + m)).done = false := by
        intro m hm
        have he : n + 1 + m = n + (m + 1) := by omega
        rw [he]; exact hlt (m + 1) (by omega)
      have ih2 := ih (n + 1) hd2 hlt2
      show (if (ops n).done = true then some (ops n, []) else
            match pollLoop ops (k + 1) (n + 1) with
            | none => none
            | some (op, evs) => some (op, .wait 5000 :: .refetch :: evs))
          = some (ops (n + (k + 1)), pollTrace (k + 1))
      rw [if_neg (by rw [h0]; exact Bool.false_ne_true), ih2]
      have he : n + 1 + k = n + (k + 1) := by omega
      rw [he]
      rfl

/-- C4: video generation polls the long-running operation.  Under the
precondition that some poll eventually returns a done operation, there is a
number `k` of iterations after which the loop exits: every earlier
snapshot is not done, the loop terminates at the first done snapshot with
`k` wait-5000-ms-then-refetch pairs recorded, and the full run fetches the
resulting video URI only after the loop's trace — inside the loop every
event is a wait or a refetch. -/
theorem c4_polling_terminates (ops : ℕ → VideoOperation) (hasApiKey : Bool)
    (h : ∃ n, (ops n).done = true) :
    ∃ k, (∀ m, m < k → (ops m).done = false) ∧
      (ops k).done = true ∧
      pollLoop ops (k + 1) 0 = some (ops k, pollTrace k) ∧
      generateVideoRun ops hasApiKey (k + 1)
          = some (pollTrace k ++ videoUriTail hasApiKey (ops k)) ∧
      (∀ e ∈ pollTrace k, e = VeoEvent.wait 5000 ∨ e = VeoEvent.refetch) := by
  classical
  have hlt : ∀ m, m < Nat.find h → (ops m).done = false := by
    intro m hm
    cases hb : (ops m).done with
    | false => rfl
    | true => exact absurd hb (Nat.find_min h hm)
  have hpoll : pollLoop ops (Nat.find h + 1) 0
      = some (ops (Nat.find h), pollTrace (Nat.find h)) := by
    have := pollLoop_first_done ops (Nat.find h) 0
      (by simpa using Nat.find_spec h) (by simpa using hlt)
    simpa using this
  refine ⟨Nat.find h, hlt, Nat.find_spec h, hpoll, ?_, pollTrace_events _⟩
  show (match pollLoop ops (Nat.find h + 1) 0 with
        | none => none
        | some (op, evs) => some (evs ++ videoUriTail hasApiKey op))
      = some (pollTrace (Nat.find h) ++ videoUriTail hasApiKey (ops (Nat.find h)))
  rw [hpoll]

/-- Witness for C4 on the sample operation sequence (done from snapshot 1
onwards): the precondition holds and the conclusion follows by the
theorem. -/
theorem c4_polling_terminates_witness :
    (∃ n, (opsSample n).done = true) ∧
    ∃ k, (∀ m, m < k → (opsSample m).done = false) ∧
      (opsSample k).done = true ∧
      pollLoop opsSample (k + 1) 0 = some (opsSample k, pollTrace k) ∧
      generateVideoRun opsSample true (k + 1)
          = some (pollTrace k ++ videoUriTail true (opsSample k)) ∧
      (∀ e ∈ pollTrace k, e = VeoEvent.wait 5000 ∨ e = VeoEvent.refetch) :=
  ⟨⟨1, by decide⟩, c4_polling_terminates opsSample true ⟨1, by decide⟩⟩

/-- Witness for C6 on the concrete data URL
`data:image/jpeg;base64,QUJD`: the promise resolves with the payload
`QUJD`. -/
theorem c6_blobToBase64_witness :
    (',' ∉ "data:image/jpeg;base64".toList) ∧
    (',' ∉ "QUJD".toList) ∧
    blobToBase64OnLoadEnd
        (.str ("data:image/jpeg;base64".toList ++ ',' :: "QUJD".toList))
      = .resolved (some "QUJD".toList) := by
  refine ⟨by decide, by decide, ?_⟩
  exact (c6_blobToBase64 "data:image/jpeg;base64".toList "QUJD".toList
    (by decide) (by decide)).1

/-- C8: `sendMessage` is a no-op under its guard — when the trimmed input
is empty and no image is uploaded, or when a request is already in flight,
the whole state (messages, input, uploaded image, loading flag) is left
unchanged. -/
theorem c8_sendMessage_guard_noop (st : ChatState) (now nowResp : ℕ)
    (outcome : RequestOutcome)
    (h : (jsTrimmedEmpty st.input = true ∧ jsTruthyOptStr st.uploadedImage = false)
         ∨ st.isLoading = true) :
    sendMessage st now nowResp outcome = st := by
  have hb : sendMessageBlocked st = true := by
    unfold sendMessageBlocked
    rcases h with ⟨h1, h2⟩ | h3
    · rw [h1, h2]; rfl
    · rw [h3]; simp
  unfold sendMessage
  rw [hb]
  rfl

/-- Witness for C8 at a concrete blocked state (whitespace-only input, no
uploaded image, not loading). -/
theorem c8_sendMessage_guard_noop_witness :
    ((jsTrimmedEmpty "  " = true ∧ jsTruthyOptStr none = false) ∨ false = true) ∧
    sendMessage ⟨[], "  ", false, .fast, none⟩ 5 6 (.thrown "boom")
        = ⟨[], "  ", false, .fast, none⟩ := by
  refine ⟨Or.inl ⟨by decide, by decide⟩, ?_⟩
  exact c8_sendMessage_guard_noop ⟨[], "  ", false, .fast, none⟩ 5 6
    (.thrown "boom") (Or.inl ⟨by decide, by decide⟩)

/-- C9: every `sendMessage` call that passes its guard appends exactly the
user message followed by exactly one model-role message — the response
text, the fixed fallback when the response has no (or empty) text, or an
error text when the request throws — never removes or modifies existing
messages, and ends with `isLoading` false on success and failure alike. -/
theorem c9_sendMessage_appends_two (st : ChatState) (now nowResp : ℕ)
    (outcome : RequestOutcome) (h : sendMessageBlocked st = false) :
    (sendMessage st now nowResp outcome).messages
        = st.messages ++ [chatUserMsg st now, chatBotMsg nowResp outcome] ∧
    (sendMessage st now nowResp outcome).messages.take st.messages.length
        = st.messages ∧
    (chatUserMsg st now).role = ChatRole.user ∧
    (chatUserMsg st now).text = st.input ∧
    (∀ s, st.uploadedImage = some s → ¬ s = "" →
        (chatUserMsg st now).images = some [s]) ∧
    (chatBotMsg nowResp outcome).role = ChatRole.model ∧
    (∀ r t, outcome = .ok r → r.text = some t → ¬ t = "" →
        (chatBotMsg nowResp outcome).text = t) ∧
    (∀ r, outcome = .ok r → (r.text = none ∨ r.text = some "") →
        (chatBotMsg nowResp outcome).text = noTextFallback) ∧
    (∀ m, outcome = .thrown m →
        (chatBotMsg nowResp outcome).text = "Error: " ++ m) ∧
    (sendMessage st now nowResp outcome).isLoading = false := by
  have hS : sendMessage st now nowResp outcome
      = { st with
            messages := st.messages ++ [chatUserMsg st now, chatBotMsg nowResp outcome]
            input := ""
            uploadedImage := none
            isLoading := false } := by
    unfold sendMessage
    rw [h]
    rfl
  refine ⟨by rw [hS], by rw [hS]; exact List.take_left _ _, rfl, rfl, ?_, ?_, ?_, ?_, ?_, by rw [hS]⟩
  · intro s hs hne
    show (match st.uploadedImage with
          | none => none
          | some s => if s = "" then none else some [s]) = some [s]
    rw [hs]
    show (if s = "" then none else some [s]) = some [s]
    rw [if_neg hne]
  · cases outcome <;> rfl
  · intro r t hr ht hne
    subst hr
    show jsTextOr r.text noTextFallback = t
    rw [ht]
    show (if t = "" then noTextFallback else t) = t
    rw [if_neg hne]
  · intro r hr hcase
    subst hr
    show jsTextOr r.text noTextFallback = noTextFallback
    rcases hcase with h1 | h1 <;> rw [h1]
    · rfl
    · show (if "" = "" then noTextFallback else "") = noTextFallback
      rw [if_pos rfl]
  · intro m hm
    subst hm
    rfl

/-- Witness for C9 at a concrete unblocked state: input "hello", no image,
not loading, with a response carrying text "hi". -/
theorem c9_sendMessage_appends_two_witness :
    sendMessageBlocked ⟨[], "hello", false, .fast, none⟩ = false ∧
    (sendMessage ⟨[], "hello", false, .fast, none⟩ 10 11 (.ok ⟨some "hi", none⟩)).messages
        = [] ++ [chatUserMsg ⟨[], "hello", false, .fast, none⟩ 10,
                 chatBotMsg 11 (.ok ⟨some "hi", none⟩)] ∧
    (sendMessage ⟨[], "hello", false, .fast, none⟩ 10 11 (.ok ⟨some "hi", none⟩)).isLoading
        = false := by
  have h := c9_sendMessage_appends_two ⟨[], "hello", false, .fast, none⟩ 10 11
    (.ok ⟨some "hi", none⟩) (by decide)
  exact ⟨by decide, h.1, h.2.2.2.2.2.2.2.2.2⟩

/-- C10: `handleGenerate` maps the quality setting to the model
deterministically — quality `1K` selects `gemini-2.5-flash-image` with no
`imageConfig`, while `2K` and `4K` select `gemini-3-pro-image-preview`
with `imageConfig.imageSize` equal to the selected quality — and with no
uploaded image or no API key it returns without changing any state and
sends nothing. -/
theorem c10_quality_model_mapping (st : StudioState) (apiKey : Option String)
    (outcome : GenImageOutcome) :
    (jsTruthyOptStr st.originalImage = false ∨ jsTruthyOptStr apiKey = false →
        handleGenerate st apiKey outcome = (st, none)) ∧
    (jsTruthyOptStr st.originalImage = true → jsTruthyOptStr apiKey = true →
        ∃ req, (handleGenerate st apiKey outcome).2 = some req ∧
          (st.quality = .q1K →
              req.model = "gemini-2.5-flash-image" ∧ req.imageConfigSize = none) ∧
          (st.quality = .q2K →
              req.model = "gemini-3-pro-image-preview" ∧
              req.imageConfigSize = some "2K") ∧
          (st.quality = .q4K →
              req.model = "gemini-3-pro-image-preview" ∧
              req.imageConfigSize = some "4K")) := by
  constructor
  · intro hfalsy
    unfold handleGenerate
    rcases hfalsy with hf | hf <;> rw [hf] <;> simp
  · intro h1 h2
    unfold handleGenerate
    rw [h1, h2]
    cases outcome with
    | ok parts =>
        refine ⟨_, rfl, ?_, ?_, ?_⟩ <;> intro hq <;>
          exact ⟨by simp [hq], by simp [hq, Quality.str]⟩
    | thrown m =>
        refine ⟨_, rfl, ?_, ?_, ?_⟩ <;> intro hq <;>
          exact ⟨by simp [hq], by simp [hq, Quality.str]⟩

/-- Witness for C10 at a concrete state with an uploaded image, an API key
and quality 2K: the request uses the pro model with image size "2K". -/
theorem c10_quality_model_mapping_witness :
    jsTruthyOptStr (⟨some "img", none, "p", false, .q2K⟩ : StudioState).originalImage = true ∧
    ∃ req, (handleGenerate ⟨some "img", none, "p", false, .q2K⟩ (some "key")
        (.ok [])).2 = some req ∧
      req.model = "gemini-3-pro-image-preview" ∧
      req.imageConfigSize = some "2K" := by
  refine ⟨by decide, ?_⟩
  obtain ⟨req, hreq, _, h2k, _⟩ :=
    (c10_quality_model_mapping ⟨some "img", none, "p", false, .q2K⟩ (some "key")
      (.ok [])).2 (by decide) (by decide)
  exact ⟨req, hreq, (h2k rfl).1, (h2k rfl).2⟩

/-- C3 fails as stated: the start button's guard is only
`connected = false`, and `connected` becomes true only when `onopen`
fires, so a second click on "Start Conversation" while the first connect
call is still pending initiates a second session; once both `onopen`
callbacks fire, two streaming sessions are open at once (and `cleanup`
would close only the one whose handle is stored).  The trace
start-click, start-click, onopen 0, onopen 1 is reachable and ends with
two open sessions. -/
theorem c3_counterexample :
    ¬ (∀ (evs : List PanelEvent) (s2 : PanelState),
        panelRun panelInit evs = some s2 → s2.openSessions.length ≤ 1) := by
  intro hall
  have h2 := hall [.startClick, .startClick, .onOpen 0, .onOpen 1]
    { connected := true, pendingSessions := [], openSessions := [0, 1]
      storedHandle := some 1, nextId := 2 } (by decide)
  exact absurd h2 (by decide)

/-- A single panel step preserves the bound of one session (pending or
open) in total, provided a start click only happens in a quiescent
state. -/
theorem panelStep_single_session (s s2 : PanelState) (e : PanelEvent)
    (hq : e = .startClick →
        (s.pendingSessions.isEmpty && s.openSessions.isEmpty) = true)
    (hinv : s.pendingSessions.length + s.openSessions.length ≤ 1)
    (hstep : panelStep s e = some s2) :
    s2.pendingSessions.length + s2.openSessions.length ≤ 1 := by
  cases e with
  | startClick =>
      have hcheck := hq rfl
      rw [Bool.and_eq_true] at hcheck
      have hp : s.pendingSessions = [] := by simpa using hcheck.1
      have ho : s.openSessions = [] := by simpa using hcheck.2
      unfold panelStep at hstep
      by_cases hc : s.connected
      · rw [if_pos hc] at hstep
        exact absurd hstep (by simp)
      · rw [if_neg hc] at hstep
        injection hstep with hstep
        subst hstep
        show (s.pendingSessions ++ [s.nextId]).length + s.openSessions.length ≤ 1
        simp [hp, ho]
  | onOpen sid =>
      have hstep2 : (if sid ∈ s.pendingSessions then
          some { s with
                   pendingSessions := s.pendingSessions.erase sid
                   openSessions := s.openSessions ++ [sid]
                   connected := true }
        else none) = some s2 := hstep
      by_cases hm : sid ∈ s.pendingSessions
      · rw [if_pos hm] at hstep2
        injection hstep2 with hstep2
        subst hstep2
        show (s.pendingSessions.erase sid).length
            + (s.openSessions ++ [sid]).length ≤ 1
        have h1 : (s.pendingSessions.erase sid).length
            = s.pendingSessions.length - 1 := List.length_erase_of_mem hm
        have h2 : (s.openSessions ++ [sid]).length
            = s.openSessions.length + 1 := by simp
        have h3 : 0 < s.pendingSessions.length := List.length_pos_of_mem hm
        omega
      · rw [if_neg hm] at hstep2
        exact absurd hstep2 (by simp)
  | onClose sid =>
      have hstep2 : (if sid ∈ s.openSessions then
          some { s with
                   openSessions := s.openSessions.erase sid
                   connected := false }
        else none) = some s2 := hstep
      by_cases hm : sid ∈ s.openSessions
      · rw [if_pos hm] at hstep2
        injection hstep2 with hstep2
        subst hstep2
        show s.pendingSessions.length + (s.openSessions.erase sid).length ≤ 1
        have h1 : (s.openSessions.erase sid).length ≤ s.openSessions.length :=
          (List.erase_sublist sid s.openSessions).length_le
        omega
      · rw [if_neg hm] at hstep2
        exact absurd hstep2 (by simp)
  | cleanupCall =>
      have hstep2 : some { s with
          pendingSessions :=
            match s.storedHandle with
            | some sid => s.pendingSessions.erase sid
            | none => s.pendingSessions
          openSessions :=
            match s.storedHandle with
            | some sid => s.openSessions.erase sid
            | none => s.openSessions
          connected := false } = some s2 := hstep
      injection hstep2 with hstep2
      subst hstep2
      show (match s.storedHandle with
            | some sid => s.pendingSessions.erase sid
            | none => s.pendingSessions).length
          + (match s.storedHandle with
             | some sid => s.openSessions.erase sid
             | none => s.openSessions).length ≤ 1
      cases s.storedHandle with
      | none => exact hinv
      | some sid =>
          have h1 : (s.pendingSessions.erase sid).length
              ≤ s.pendingSessions.length :=
            (List.erase_sublist sid s.pendingSessions).length_le
          have h2 : (s.openSessions.erase sid).length
              ≤ s.openSessions.length :=
            (List.erase_sublist sid s.openSessions).length_le
          show (s.pendingSessions.erase sid).length
              + (s.openSessions.erase sid).length ≤ 1
          omega

/-- Along any run whose start clicks are quiescent, the bound of one
session in total is invariant. -/
theorem panelRun_single_session : ∀ (evs : List PanelEvent) (s : PanelState),
    s.pendingSessions.length + s.openSessions.length ≤ 1 →
    quiescentStarts s evs = true →
    ∀ s2, panelRun s evs = some s2 →
    s2.pendingSessions.length + s2.openSessions.length ≤ 1 := by
  intro evs
  induction evs with
  | nil =>
      intro s hinv _ s2 hrun
      cases hrun
      exact hinv
  | cons e evs ih =>
      intro s hinv hq s2 hrun
      unfold panelRun at hrun
      unfold quiescentStarts at hq
      rw [Bool.and_eq_true] at hq
      cases hstep : panelStep s e with
      | none =>
          rw [hstep] at hrun
          exact absurd hrun (by simp)
      | some s1 =>
          rw [hstep] at hrun hq
          have hq1 : e = .startClick →
              (s.pendingSessions.isEmpty && s.openSessions.isEmpty) = true := by
            intro he
            have := hq.1
            rw [he] at this
            simpa using this
          have hq2 : quiescentStarts s1 evs = true := hq.2
          exact ih s1 (panelStep_single_session s s1 e hq1 hinv hstep) hq2 s2 hrun

/-- C3 (amended): in every reachable state of the voice-assistant panel
along a trace in which the start control is only activated while no
connect call is pending and no session is open, at most one streaming
session is open.  (The code's own guard — start offered only while
`connected` is false — does not by itself rule out a second start during
a pending connection attempt; see the counterexample.) -/
theorem c3_single_session (evs : List PanelEvent) (s2 : PanelState)
    (hrun : panelRun panelInit evs = some s2)
    (hq : quiescentStarts panelInit evs = true) :
    s2.openSessions.length ≤ 1 := by
  have h := panelRun_single_session evs panelInit (by simp [panelInit]) hq s2 hrun
  omega

/-- Witness for C3 (amended) on the concrete trace start-click, onopen 0,
cleanup: the run succeeds, its start click is quiescent, and at most one
session is open at the end. -/
theorem c3_single_session_witness :
    panelRun panelInit [.startClick, .onOpen 0, .cleanupCall]
        = some ⟨false, [], [], some 0, 1⟩ ∧
    quiescentStarts panelInit [.startClick, .onOpen 0, .cleanupCall] = true ∧
    (⟨false, [], [], some 0, 1⟩ : PanelState).openSessions.length ≤ 1 := by
  refine ⟨by decide, by decide, ?_⟩
  exact c3_single_session [.startClick, .onOpen 0, .cleanupCall]
    ⟨false, [], [], some 0, 1⟩ (by decide) (by decide)

end VintedPics
